import Mathlib

/-!
Shallow embedding of `mongoimport/tsv.go`: the TSV input reader, its
construction (`NewTSVInputReader`), header handling
(`ReadAndValidateHeader`), and the two-stage pipeline of `StreamDocument`
(the reading goroutine feeding a bounded raw-record channel, and the
decode/merge goroutine), together with theorems about the claims on this
code.

Strings are modelled at byte granularity as `List Char`; Go's `uint64`
counter `numProcessed` is a `Nat` reduced modulo `2 ^ 64` at each
increment.  Collaborators that live outside this file's source
(`sizeTrackingReader`, `streamDocuments`, `channelQuorumError`,
`validateReaderFields`) are modelled from the spec or abstracted as
parameters, as flagged in their doc comments.
-/

namespace Mongoimport

/-- The record delimiter used by the TSV reader (`entryDelimiter = '\n'`). -/
def entryDelimiter : Char := '\n'

/-- The token separator used by the TSV reader (`tokenSeparator = "\t"`,
a one-byte separator, modelled as the character). -/
def tokenSeparator : Char := '\t'

/-- Splits off the first record from a byte sequence: the consumed prefix
(up to and including the first occurrence of the delimiter), the remaining
bytes, and whether the delimiter was found. -/
def splitAtDelim (delim : Char) : List Char → List Char × List Char × Bool
  | [] => ([], [], false)
  | c :: rest =>
    if c = delim then ([c], rest, true)
    else
      let r := splitAtDelim delim rest
      (c :: r.1, r.2.1, r.2.2)

/-- Model of the underlying byte stream handed to the reader: the bytes it
will deliver, and what happens once they are exhausted (`failAfter = true`
means the next read returns a non-EOF error with message `ioMsg`;
otherwise it returns end of file). -/
structure ByteStream where
  data : List Char
  failAfter : Bool
  ioMsg : String
deriving DecidableEq, Repr

/-- The two terminal conditions a read can report: `io.EOF` or another
I/O error carrying a message. -/
inductive ReadErr where
  | eof : ReadErr
  | ioError : String → ReadErr
deriving DecidableEq, Repr

/-- Model of `bufio.Reader.ReadString(delim)`: reads until and including
the first delimiter; if the stream is exhausted first, returns the partial
data read so far together with the terminal error (`io.EOF` or the
underlying read error), exactly as `bufio` does. -/
def readString (s : ByteStream) (delim : Char) : List Char × Option ReadErr × ByteStream :=
  let r := splitAtDelim delim s.data
  if r.2.2 then
    (r.1, none, { s with data := r.2.1 })
  else
    (r.1, some (if s.failAfter then ReadErr.ioError s.ioMsg else ReadErr.eof),
      { s with data := [] })

/-- Shallow embedding of the `TSVInputReader` struct.  `sizeCount` is the
byte counter of the `sizeTrackingReader` built in `NewTSVInputReader`
(the embedded `sizeTracker`, whose `Size()` returns it); it is modelled
from the spec as a counter incremented by every read that goes through
the wrapper.  Since `NewTSVInputReader` wires `bufio.NewReader(in)` — the
raw stream, not the wrapper — as `tsvReader`, no operation in this file
ever reads through the wrapper, so no operation updates `sizeCount`. -/
structure TSVInputReader where
  fields : List (List Char)
  tsvReader : ByteStream
  tsvRecord : List Char
  numProcessed : Nat
  numDecoders : Nat
  sizeCount : Nat
deriving DecidableEq, Repr

/-- `Size()` of the embedded size tracker. -/
def Size (r : TSVInputReader) : Nat := r.sizeCount

/-- Shallow embedding of `NewTSVInputReader`: builds the size-tracking
wrapper `szCount := &sizeTrackingReader{in, 0}` (its counter starts at 0)
but sets `tsvReader := bufio.NewReader(in)`, reading from the raw stream
`in` and bypassing the wrapper — exactly as the source does. -/
def NewTSVInputReader (fields : List (List Char)) (inStream : ByteStream)
    (numDecoders : Nat) : TSVInputReader :=
  { fields := fields
    tsvReader := inStream
    tsvRecord := []
    numProcessed := 0
    numDecoders := numDecoders
    sizeCount := 0 }

/-- Modulus of Go's `uint64`. -/
def uint64Mod : Nat := 2 ^ 64

/-- `numProcessed++` on a Go `uint64`. -/
def inc64 (n : Nat) : Nat := (n + 1) % uint64Mod

/-- One execution of the read statement of the loop body:
`tsvInputReader.tsvRecord, err = tsvInputReader.tsvReader.ReadString(entryDelimiter)`.
Returns the record read, the error, and the updated reader. -/
def tsvReadRecord (r : TSVInputReader) : List Char × Option ReadErr × TSVInputReader :=
  let res := readString r.tsvReader entryDelimiter
  (res.1, res.2.1, { r with tsvReader := res.2.2, tsvRecord := res.1 })

/-- Shallow embedding of the `TSVConverter` struct. -/
structure TSVConverter where
  fields : List (List Char)
  data : List Char
  index : Nat
deriving DecidableEq, Repr

/-- The observable actions of the reading goroutine of `StreamDocument`:
sending a converter on `tsvRecordChan`, closing that channel, and sending
a terminal signal (`none` = Go `nil`) on `tsvErrChan`. -/
inductive ReadEvent where
  | send : TSVConverter → ReadEvent
  | closeChan : ReadEvent
  | errSignal : Option String → ReadEvent
deriving DecidableEq, Repr

/-- Shallow embedding of the reading goroutine of `StreamDocument`: loop
reading one record at a time; on a read error close `tsvRecordChan` and
signal `nil` for `io.EOF` or, after one more `numProcessed++`, the
formatted read error; on success send a `TSVConverter` carrying the
current `numProcessed` as index, then increment `numProcessed`.  The
`fuel` argument bounds the iteration count; `runReadLoop` below supplies
enough fuel for the loop to always reach its `return`. -/
def readLoop : Nat → TSVInputReader → List ReadEvent × TSVInputReader
  | 0, r => ([], r)
  | fuel + 1, r =>
    let res := tsvReadRecord r
    match res.2.1 with
    | some ReadErr.eof =>
        ([ReadEvent.closeChan, ReadEvent.errSignal none], res.2.2)
    | some (ReadErr.ioError m) =>
        let r2 : TSVInputReader := { res.2.2 with numProcessed := inc64 res.2.2.numProcessed }
        ([ReadEvent.closeChan,
          ReadEvent.errSignal
            (some ("read error on entry #" ++ toString r2.numProcessed ++ ": " ++ m))], r2)
    | none =>
        let conv : TSVConverter :=
          { fields := res.2.2.fields, data := res.2.2.tsvRecord, index := res.2.2.numProcessed }
        let r2 : TSVInputReader := { res.2.2 with numProcessed := inc64 res.2.2.numProcessed }
        let rest := readLoop fuel r2
        (ReadEvent.send conv :: rest.1, rest.2)

/-- The reading goroutine run to completion: each loop iteration that
sends a record consumes at least one byte of the stream, so
`data.length + 1` iterations always reach the terminating `return`. -/
def runReadLoop (r : TSVInputReader) : List ReadEvent × TSVInputReader :=
  readLoop (r.tsvReader.data.length + 1) r

/-- The converters actually sent on `tsvRecordChan`, in order. -/
def producedRecords (evs : List ReadEvent) : List TSVConverter :=
  evs.filterMap fun ev =>
    match ev with
    | ReadEvent.send c => some c
    | _ => none

/-- The terminal signals sent on `tsvErrChan`, in order. -/
def errSignals (evs : List ReadEvent) : List (Option String) :=
  evs.filterMap fun ev =>
    match ev with
    | ReadEvent.errSignal e => some e
    | _ => none

/-- A structured document: an ordered list of (field name, value) pairs. -/
abbrev BSONDoc := List (List Char × List Char)

/-- Modelled from the spec: a `ConversionOutcome` pairs the sequence index
copied from the `RawRecord` that produced it with the converter's result
(structured document or error). -/
structure ConversionOutcome where
  index : Nat
  result : Except String BSONDoc
deriving Repr

/-- Modelled from the spec: the decode worker pool / merge stage
(`streamDocuments`, whose code lies outside this file's source) produces
exactly one `ConversionOutcome` per raw record consumed from the channel,
applying the converter; per-record conversion errors are carried inside
the outcome. -/
def streamDocumentsOutcomes (convert : TSVConverter → Except String BSONDoc)
    (recs : List TSVConverter) : List ConversionOutcome :=
  recs.map fun c => { index := c.index, result := convert c }

/-- Modelled from the spec: the terminal signal the decode/merge stage
returns — per-record conversion errors are non-fatal, so the stage
signals success once its input channel is drained. -/
def streamDocumentsSignal (_recs : List TSVConverter) : Option String := none

/-- The terminal signals the decode/merge goroutine of `StreamDocument`
sends on `tsvErrChan`: exactly one, the return value of
`streamDocuments`. -/
def decodeStageSignals (recs : List TSVConverter) : List (Option String) :=
  [streamDocumentsSignal recs]

/-- Modelled from the spec: `channelQuorumError` collects `quorum`
terminal signals from the shared error channel and resolves them into a
single outcome — the first error observed, or nil when all are nil. -/
def channelQuorumError (signals : List (Option String)) (quorum : Nat) : Option String :=
  (signals.take quorum).foldl
    (fun acc s =>
      match acc with
      | some e => some e
      | none => s)
    none

/-- The quorum count `StreamDocument` passes to `channelQuorumError`. -/
def streamDocumentQuorum : Nat := 2

/-- Model of a Go buffered channel: a fixed capacity and the buffered,
not-yet-consumed elements. -/
structure BoundedChan (α : Type) where
  capacity : Nat
  buffer : List α
deriving Repr

/-- Go channel semantics: a send on a buffered channel blocks exactly
when the buffer already holds `capacity` unconsumed elements. -/
def BoundedChan.sendBlocks {α : Type} (ch : BoundedChan α) : Bool :=
  decide (ch.capacity ≤ ch.buffer.length)

/-- The raw-record channel created by `StreamDocument`:
`tsvRecordChan := make(chan Converter, tsvInputReader.numDecoders)` —
bounded, with capacity the reader's `numDecoders`, initially empty. -/
def mkTSVRecordChan (r : TSVInputReader) : BoundedChan TSVConverter :=
  { capacity := r.numDecoders, buffer := [] }

/-- Shallow embedding of `StreamDocument`: run the reading goroutine to
completion, feed the records it sent on `tsvRecordChan` to the
decode/merge stage, and resolve the two stages' terminal signals (here in
reader-first order) with `channelQuorumError` at quorum `2`.  Returns the
aggregate result, the records sent on the channel, the
`ConversionOutcome`s delivered to the consumer, and the final reader
state. -/
def StreamDocument (convert : TSVConverter → Except String BSONDoc) (_ordered : Bool)
    (r : TSVInputReader) :
    Option String × List TSVConverter × List ConversionOutcome × TSVInputReader :=
  let run := runReadLoop r
  let recs := producedRecords run.1
  (channelQuorumError (errSignals run.1 ++ decodeStageSignals recs) streamDocumentQuorum,
   recs, streamDocumentsOutcomes convert recs, run.2)

/-- Go `strings.TrimRight(field, CR-LF)`: remove trailing carriage-return
and newline characters. -/
def trimRightCRLF (s : List Char) : List Char :=
  (s.reverse.dropWhile fun c => c = '\r' || c = '\n').reverse

/-- The error returned by `ReadAndValidateHeader`: either reading the
header line failed, or field validation rejected the combined list. -/
inductive HeaderErr where
  | readErr : ReadErr → HeaderErr
  | invalid : String → HeaderErr
deriving DecidableEq, Repr

/-- Shallow embedding of `ReadAndValidateHeader`, parameterized by
`validateReaderFields` (a collaborator outside this file's source,
abstracted as a function returning `none` for a valid field list and
`some msg` otherwise): read one header line; on a read error return it
unchanged; otherwise append each tab-separated, CR/LF-right-trimmed token
of the header line to the reader's existing `fields` and return the
validation result of the combined list. -/
def ReadAndValidateHeader (validateReaderFields : List (List Char) → Option String)
    (r : TSVInputReader) : Option HeaderErr × TSVInputReader :=
  let res := readString r.tsvReader entryDelimiter
  match res.2.1 with
  | some e => (some (HeaderErr.readErr e), { r with tsvReader := res.2.2 })
  | none =>
    let newFields := r.fields ++ (res.1.splitOn tokenSeparator).map trimRightCRLF
    ((validateReaderFields newFields).map HeaderErr.invalid,
     { r with tsvReader := res.2.2, fields := newFields })

/-- When no delimiter is found, `splitAtDelim` consumes the whole input,
leaves nothing, and the delimiter indeed does not occur in the input. -/
lemma splitAtDelim_false {d : Char} :
    ∀ {l : List Char}, (splitAtDelim d l).2.2 = false →
      (splitAtDelim d l).1 = l ∧ (splitAtDelim d l).2.1 = [] ∧ d ∉ l := by
  intro l
  induction l with
  | nil => intro _; simp [splitAtDelim]
  | cons c rest ih =>
    intro h
    by_cases hc : c = d
    · simp [splitAtDelim, hc] at h
    · simp only [splitAtDelim, if_neg hc] at h ⊢
      rcases ih h with ⟨h1, h2, h3⟩
      refine ⟨by rw [h1], h2, ?_⟩
      simp only [List.mem_cons]
      exact fun hm => hm.elim (fun hdc => hc (Eq.symm hdc)) h3

/-- When the delimiter is found, the consumed prefix is a delimiter-free
chunk followed by one delimiter, and input = prefix ++ rest. -/
lemma splitAtDelim_true {d : Char} :
    ∀ {l : List Char}, (splitAtDelim d l).2.2 = true →
      ∃ a, (splitAtDelim d l).1 = a ++ [d] ∧ d ∉ a ∧
        l = a ++ [d] ++ (splitAtDelim d l).2.1 := by
  intro l
  induction l with
  | nil => intro h; simp [splitAtDelim] at h
  | cons c rest ih =>
    intro h
    by_cases hc : c = d
    · subst hc
      exact ⟨[], by simp [splitAtDelim], by simp, by simp [splitAtDelim]⟩
    · simp only [splitAtDelim, if_neg hc] at h ⊢
      rcases ih h with ⟨a, h1, h2, h3⟩
      refine ⟨c :: a, by simp [h1], ?_, ?_⟩
      · simp only [List.mem_cons]
        exact fun hm => hm.elim (fun hdc => hc (Eq.symm hdc)) h2
      · conv_lhs => rw [h3]
        simp

/-- Complete characterization of the reading goroutine, given enough fuel
and no `uint64` overflow: its event trace is some sends followed by
exactly `close(tsvRecordChan)` and then exactly one terminal signal; the
sends are one per delimiter in the stream, carry indices `0,1,2,...`
offset by the initial `numProcessed`, the reader's field list, and
delimiter-terminated payloads; the terminal signal is nil exactly on EOF
and the formatted read error otherwise; and the final `numProcessed` and
size counter are as the loop computes them. -/
lemma readLoop_shape :
    ∀ (fuel : Nat) (r : TSVInputReader),
      r.tsvReader.data.length < fuel →
      r.numProcessed + r.tsvReader.data.length + 1 < uint64Mod →
      ∃ (convs : List TSVConverter) (e : Option String) (r2 : TSVInputReader),
        readLoop fuel r
            = (convs.map ReadEvent.send ++ [ReadEvent.closeChan, ReadEvent.errSignal e], r2)
          ∧ convs.length = r.tsvReader.data.count entryDelimiter
          ∧ (∀ i (h : i < convs.length), (convs.get ⟨i, h⟩).index = r.numProcessed + i)
          ∧ (∀ c ∈ convs, c.fields = r.fields)
          ∧ (∀ c ∈ convs, c.data.getLast? = some entryDelimiter)
          ∧ (r.tsvReader.failAfter = false →
              e = none ∧ r2.numProcessed = r.numProcessed + convs.length)
          ∧ (r.tsvReader.failAfter = true →
              e = some ("read error on entry #" ++ toString (r.numProcessed + convs.length + 1)
                  ++ ": " ++ r.tsvReader.ioMsg)
              ∧ r2.numProcessed = r.numProcessed + convs.length + 1)
          ∧ r2.sizeCount = r.sizeCount := by
  intro fuel
  induction fuel with
  | zero => intro r h _; exact absurd h (Nat.not_lt_zero _)
  | succ n ih =>
    intro r hlen hnum
    have hinc : inc64 r.numProcessed = r.numProcessed + 1 := by
      have hlt : r.numProcessed + 1 < uint64Mod := by omega
      simpa [inc64] using Nat.mod_eq_of_lt hlt
    cases hfnd : (splitAtDelim entryDelimiter r.tsvReader.data).2.2 with
    | false =>
      rcases splitAtDelim_false hfnd with ⟨hpre, hpost, hnm⟩
      have hcnt : r.tsvReader.data.count entryDelimiter = 0 := List.count_eq_zero.mpr hnm
      cases hfa : r.tsvReader.failAfter with
      | false =>
        have hred : readLoop (n + 1) r
            = ([ReadEvent.closeChan, ReadEvent.errSignal none],
               { r with tsvReader := { r.tsvReader with data := [] },
                        tsvRecord := (splitAtDelim entryDelimiter r.tsvReader.data).1 }) := by
          simp [readLoop, tsvReadRecord, readString, hfnd, hfa]
        refine ⟨[], none, _, by simpa using hred, by simpa using hcnt.symm, ?_, ?_, ?_, ?_, ?_, ?_⟩
        · intro i h; exact absurd h (Nat.not_lt_zero _)
        · intro c hc; exact absurd hc (List.not_mem_nil c)
        · intro c hc; exact absurd hc (List.not_mem_nil c)
        · intro _; exact ⟨rfl, rfl⟩
        · intro hcontra; simp [hfa] at hcontra
        · rfl
      | true =>
        have hred : readLoop (n + 1) r
            = ([ReadEvent.closeChan,
                ReadEvent.errSignal (some ("read error on entry #"
                  ++ toString (inc64 r.numProcessed) ++ ": " ++ r.tsvReader.ioMsg))],
               { r with tsvReader := { r.tsvReader with data := [] },
                        tsvRecord := (splitAtDelim entryDelimiter r.tsvReader.data).1,
                        numProcessed := inc64 r.numProcessed }) := by
          simp [readLoop, tsvReadRecord, readString, hfnd, hfa]
        rw [hinc] at hred
        refine ⟨[], some ("read error on entry #" ++ toString (r.numProcessed + 1)
            ++ ": " ++ r.tsvReader.ioMsg), _, by simpa using hred, by simpa using hcnt.symm,
            ?_, ?_, ?_, ?_, ?_, ?_⟩
        · intro i h; exact absurd h (Nat.not_lt_zero _)
        · intro c hc; exact absurd hc (List.not_mem_nil c)
        · intro c hc; exact absurd hc (List.not_mem_nil c)
        · intro hcontra; simp [hfa] at hcontra
        · intro _; exact ⟨rfl, rfl⟩
        · rfl
    | true =>
      rcases splitAtDelim_true hfnd with ⟨a, hpre, hna, hdata⟩
      have hdl : r.tsvReader.data.length
          = a.length + 1 + (splitAtDelim entryDelimiter r.tsvReader.data).2.1.length := by
        conv_lhs => rw [hdata]
        simp [List.length_append]
        omega
      have hred : readLoop (n + 1) r
          = (ReadEvent.send { fields := r.fields,
                              data := (splitAtDelim entryDelimiter r.tsvReader.data).1,
                              index := r.numProcessed } ::
              (readLoop n { r with
                tsvReader := { r.tsvReader with
                  data := (splitAtDelim entryDelimiter r.tsvReader.data).2.1 },
                tsvRecord := (splitAtDelim entryDelimiter r.tsvReader.data).1,
                numProcessed := inc64 r.numProcessed }).1,
             (readLoop n { r with
                tsvReader := { r.tsvReader with
                  data := (splitAtDelim entryDelimiter r.tsvReader.data).2.1 },
                tsvRecord := (splitAtDelim entryDelimiter r.tsvReader.data).1,
                numProcessed := inc64 r.numProcessed }).2) := by
        simp [readLoop, tsvReadRecord, readString, hfnd]
      rw [hinc] at hred
      have hlen2 : (splitAtDelim entryDelimiter r.tsvReader.data).2.1.length < n := by omega
      have hnum2 : r.numProcessed + 1
          + (splitAtDelim entryDelimiter r.tsvReader.data).2.1.length + 1 < uint64Mod := by omega
      obtain ⟨convs', e, rfin, hred', hcount', hidx', hfields', hlast', hfalse', htrue', hsize'⟩ :=
        ih { r with
              tsvReader := { r.tsvReader with
                data := (splitAtDelim entryDelimiter r.tsvReader.data).2.1 },
              tsvRecord := (splitAtDelim entryDelimiter r.tsvReader.data).1,
              numProcessed := r.numProcessed + 1 } hlen2 hnum2
      refine ⟨{ fields := r.fields,
                data := (splitAtDelim entryDelimiter r.tsvReader.data).1,
                index := r.numProcessed } :: convs', e, rfin, ?_, ?_, ?_, ?_, ?_, ?_, ?_, ?_⟩
      · rw [hred, hred']; simp
      · have : r.tsvReader.data.count entryDelimiter
            = (splitAtDelim entryDelimiter r.tsvReader.data).2.1.count entryDelimiter + 1 := by
          conv_lhs => rw [hdata]
          simp [List.count_append, List.count_eq_zero.mpr hna]
        simp only [List.length_cons]
        rw [this]
        simpa using hcount'
      · intro i h
        cases i with
        | zero => simp
        | succ j =>
          have hj : j < convs'.length := by simpa using h
          have := hidx' j hj
          simp only [List.get_cons_succ]
          rw [this]
          show r.numProcessed + 1 + j = r.numProcessed + (j + 1)
          omega
      · intro c hc
        rcases List.mem_cons.mp hc with hc0 | hc1
        · rw [hc0]
        · exact hfields' c hc1
      · intro c hc
        rcases List.mem_cons.mp hc with hc0 | hc1
        · rw [hc0]; simp [hpre, List.getLast?_append_cons]
        · exact hlast' c hc1
      · intro hfa
        rcases hfalse' (by simpa using hfa) with ⟨he, hn⟩
        refine ⟨he, ?_⟩
        rw [hn]; simp; omega
      · intro hfa
        rcases htrue' (by simpa using hfa) with ⟨he, hn⟩
        constructor
        · rw [he]
          have harith : r.numProcessed + 1 + convs'.length + 1
              = r.numProcessed + (convs'.length + 1) + 1 := by omega
          simp only [harith]
          rfl
        · rw [hn]; simp; omega
      · simpa using hsize'

/-- On a trace of the shape the reading goroutine produces, the records
sent on `tsvRecordChan` are exactly the converters of the send prefix. -/
lemma producedRecords_shape (convs : List TSVConverter) (e : Option String) :
    producedRecords (convs.map ReadEvent.send ++ [ReadEvent.closeChan, ReadEvent.errSignal e])
      = convs := by
  induction convs with
  | nil => rfl
  | cons c t ih =>
    simp only [List.map_cons, List.cons_append, producedRecords, List.filterMap_cons] at ih ⊢
    rw [ih]

/-- On a trace of the shape the reading goroutine produces, exactly one
terminal signal is sent on `tsvErrChan`. -/
lemma errSignals_shape (convs : List TSVConverter) (e : Option String) :
    errSignals (convs.map ReadEvent.send ++ [ReadEvent.closeChan, ReadEvent.errSignal e])
      = [e] := by
  induction convs with
  | nil => rfl
  | cons c t ih =>
    simp only [List.map_cons, List.cons_append, errSignals, List.filterMap_cons] at ih ⊢
    rw [ih]

/-- `readLoop_shape` at the fuel `runReadLoop` supplies. -/
lemma runReadLoop_shape (r : TSVInputReader)
    (hnum : r.numProcessed + r.tsvReader.data.length + 1 < uint64Mod) :
    ∃ (convs : List TSVConverter) (e : Option String) (r2 : TSVInputReader),
      runReadLoop r
          = (convs.map ReadEvent.send ++ [ReadEvent.closeChan, ReadEvent.errSignal e], r2)
        ∧ convs.length = r.tsvReader.data.count entryDelimiter
        ∧ (∀ i (h : i < convs.length), (convs.get ⟨i, h⟩).index = r.numProcessed + i)
        ∧ (∀ c ∈ convs, c.fields = r.fields)
        ∧ (∀ c ∈ convs, c.data.getLast? = some entryDelimiter)
        ∧ (r.tsvReader.failAfter = false →
            e = none ∧ r2.numProcessed = r.numProcessed + convs.length)
        ∧ (r.tsvReader.failAfter = true →
            e = some ("read error on entry #" ++ toString (r.numProcessed + convs.length + 1)
                ++ ": " ++ r.tsvReader.ioMsg)
            ∧ r2.numProcessed = r.numProcessed + convs.length + 1)
        ∧ r2.sizeCount = r.sizeCount :=
  readLoop_shape (r.tsvReader.data.length + 1) r (Nat.lt_succ_self _) hnum

/-- The reading goroutine never touches the size tracker's counter,
whatever fuel it is given: `bufio.NewReader` wraps the raw stream, so no
read goes through the size-tracking wrapper. -/
lemma readLoop_sizeCount : ∀ (fuel : Nat) (r : TSVInputReader),
    (readLoop fuel r).2.sizeCount = r.sizeCount := by
  intro fuel
  induction fuel with
  | zero => intro r; rfl
  | succ n ih =>
    intro r
    simp only [readLoop]
    rcases hm : (tsvReadRecord r).2.1 with _ | e
    · simp only [hm]
      rw [ih]
      exact rfl
    · cases e with
      | eof => simp only [hm]; exact rfl
      | ioError m => simp only [hm]; exact rfl

/-- C1: the claim says that after reading any prefix of the input the
embedded size tracker's `Size()` equals the cumulative bytes consumed
from the underlying stream.  The code contradicts this (and the struct's
own comment on the embedded tracker): `NewTSVInputReader` wraps
`bufio.NewReader` around the raw input stream instead of the
size-tracking wrapper it just built, so no read is ever counted and
`Size()` stays `0` — concretely, one read of the two-byte stream "a\n"
consumes 2 bytes while `Size()` still returns 0. -/
theorem C1_size_counter_stays_zero :
    (∀ (fields : List (List Char)) (bs : ByteStream) (nd fuel : Nat),
        Size (readLoop fuel (NewTSVInputReader fields bs nd)).2 = 0)
    ∧ (tsvReadRecord (NewTSVInputReader [] ⟨['a', '\n'], false, ""⟩ 1)).1.length = 2
    ∧ Size (tsvReadRecord (NewTSVInputReader [] ⟨['a', '\n'], false, ""⟩ 1)).2.2 = 0 := by
  refine ⟨?_, by decide, by decide⟩
  intro fields bs nd fuel
  show (readLoop fuel (NewTSVInputReader fields bs nd)).2.sizeCount = 0
  rw [readLoop_sizeCount]
  rfl

/-- C6: whenever the reading goroutine terminates (on EOF or on any other
read error), its whole event trace is some sends followed by exactly
`close(tsvRecordChan)` and then the terminal signal — so the channel is
closed before the terminal signal is sent, and no record is ever sent
after the close. -/
theorem C6_close_precedes_terminal_signal (fields : List (List Char)) (bs : ByteStream)
    (nd : Nat) (hnum : bs.data.length + 1 < uint64Mod) :
    ∃ (convs : List TSVConverter) (e : Option String),
      (runReadLoop (NewTSVInputReader fields bs nd)).1
        = convs.map ReadEvent.send ++ [ReadEvent.closeChan, ReadEvent.errSignal e] := by
  obtain ⟨convs, e, r2, hrun, -, -, -, -, -, -, -⟩ :=
    runReadLoop_shape (NewTSVInputReader fields bs nd) (by simpa [NewTSVInputReader] using hnum)
  exact ⟨convs, e, by rw [hrun]⟩

/-- Witness for C6 at the concrete two-byte input "x\n". -/
theorem C6_close_precedes_terminal_signal_witness :
    ∃ (convs : List TSVConverter) (e : Option String),
      (runReadLoop (NewTSVInputReader [] ⟨['x', '\n'], false, ""⟩ 2)).1
        = convs.map ReadEvent.send ++ [ReadEvent.closeChan, ReadEvent.errSignal e] :=
  C6_close_precedes_terminal_signal [] ⟨['x', '\n'], false, ""⟩ 2 (by decide)

/-- C7: when the underlying stream reaches end-of-stream (`io.EOF`), the
reading stage closes `tsvRecordChan` and then sends `nil` — not an
error — as its terminal signal. -/
theorem C7_eof_signals_clean_exhaustion (fields : List (List Char)) (bs : ByteStream)
    (nd : Nat) (hnum : bs.data.length + 1 < uint64Mod) (heof : bs.failAfter = false) :
    ∃ (convs : List TSVConverter),
      (runReadLoop (NewTSVInputReader fields bs nd)).1
        = convs.map ReadEvent.send ++ [ReadEvent.closeChan, ReadEvent.errSignal none] := by
  obtain ⟨convs, e, r2, hrun, -, -, -, -, hfalse, -, -⟩ :=
    runReadLoop_shape (NewTSVInputReader fields bs nd) (by simpa [NewTSVInputReader] using hnum)
  obtain ⟨he, -⟩ := hfalse heof
  refine ⟨convs, ?_⟩
  rw [hrun, he]

/-- Witness for C7 at the concrete input "x\n" followed by EOF. -/
theorem C7_eof_signals_clean_exhaustion_witness :
    ∃ (convs : List TSVConverter),
      (runReadLoop (NewTSVInputReader [] ⟨['x', '\n'], false, ""⟩ 2)).1
        = convs.map ReadEvent.send ++ [ReadEvent.closeChan, ReadEvent.errSignal none] :=
  C7_eof_signals_clean_exhaustion [] ⟨['x', '\n'], false, ""⟩ 2 (by decide) rfl

/-- C8: the raw-record channel `StreamDocument` creates has capacity
exactly the pool size `numDecoders` the reader was constructed with, and
a send on it blocks once that many records are queued unconsumed. -/
theorem C8_channel_capacity_is_numDecoders (fields : List (List Char)) (bs : ByteStream)
    (n : Nat) :
    (mkTSVRecordChan (NewTSVInputReader fields bs n)).capacity = n
    ∧ ∀ pending : List TSVConverter, pending.length = n →
        BoundedChan.sendBlocks
          { mkTSVRecordChan (NewTSVInputReader fields bs n) with buffer := pending } = true := by
  refine ⟨rfl, ?_⟩
  intro pending hp
  simp [BoundedChan.sendBlocks, mkTSVRecordChan, NewTSVInputReader, hp]

/-- Witness for C8 at pool size 2 with two queued records. -/
theorem C8_channel_capacity_is_numDecoders_witness :
    (mkTSVRecordChan (NewTSVInputReader [] ⟨[], false, ""⟩ 2)).capacity = 2
    ∧ BoundedChan.sendBlocks
        { mkTSVRecordChan (NewTSVInputReader [] ⟨[], false, ""⟩ 2) with
          buffer := ([⟨[], ['1'], 0⟩, ⟨[], ['2'], 1⟩] : List TSVConverter) } = true :=
  ⟨(C8_channel_capacity_is_numDecoders [] ⟨[], false, ""⟩ 2).1,
   (C8_channel_capacity_is_numDecoders [] ⟨[], false, ""⟩ 2).2
     ([⟨[], ['1'], 0⟩, ⟨[], ['2'], 1⟩] : List TSVConverter) rfl⟩

/-- C9 counterexample: on the stream delivering "a\n" and then failing
with a non-EOF error, the reading stage hands exactly one record to the
decode channel but terminates with `numProcessed = 2` (the failed
record's ordinal was also counted), so the final `numProcessed` does not
equal the number of records produced. -/
theorem C9_counterexample :
    (producedRecords (runReadLoop (NewTSVInputReader [] ⟨['a', '\n'], true, "disk failure"⟩ 1)).1).length = 1
    ∧ (runReadLoop (NewTSVInputReader [] ⟨['a', '\n'], true, "disk failure"⟩ 1)).2.numProcessed = 2
    ∧ (runReadLoop (NewTSVInputReader [] ⟨['a', '\n'], true, "disk failure"⟩ 1)).2.numProcessed
        ≠ (producedRecords (runReadLoop (NewTSVInputReader [] ⟨['a', '\n'], true, "disk failure"⟩ 1)).1).length := by
  refine ⟨?_, ?_, ?_⟩ <;> decide

/-- C9 as amended: when the reading stage terminates by clean
end-of-stream, `numProcessed` equals the number of records it produced
and handed to the decode channel; when it terminates on a read error,
`numProcessed` equals that number plus one (the 1-based ordinal of the
record whose read failed). -/
theorem C9_amended_processed_count (fields : List (List Char)) (bs : ByteStream)
    (nd : Nat) (hnum : bs.data.length + 1 < uint64Mod) :
    (bs.failAfter = false →
      (runReadLoop (NewTSVInputReader fields bs nd)).2.numProcessed
        = (producedRecords (runReadLoop (NewTSVInputReader fields bs nd)).1).length)
    ∧ (bs.failAfter = true →
      (runReadLoop (NewTSVInputReader fields bs nd)).2.numProcessed
        = (producedRecords (runReadLoop (NewTSVInputReader fields bs nd)).1).length + 1) := by
  obtain ⟨convs, e, r2, hrun, -, -, -, -, hfalse, htrue, -⟩ :=
    runReadLoop_shape (NewTSVInputReader fields bs nd) (by simpa [NewTSVInputReader] using hnum)
  rw [hrun]
  constructor
  · intro hf
    obtain ⟨-, hn⟩ := hfalse hf
    rw [producedRecords_shape, hn]
    exact Nat.zero_add _
  · intro ht
    obtain ⟨-, hn⟩ := htrue ht
    rw [producedRecords_shape, hn]
    exact congrArg (fun t => t + 1) (Nat.zero_add _)

/-- Witness for C9's amended statement: clean EOF on "a\n" gives
`numProcessed = 1` for 1 record; a read error on the same bytes gives
`numProcessed = 2` for 1 record. -/
theorem C9_amended_processed_count_witness :
    (runReadLoop (NewTSVInputReader [] ⟨['a', '\n'], false, ""⟩ 1)).2.numProcessed
        = (producedRecords (runReadLoop (NewTSVInputReader [] ⟨['a', '\n'], false, ""⟩ 1)).1).length
    ∧ (runReadLoop (NewTSVInputReader [] ⟨['a', '\n'], true, "disk full"⟩ 1)).2.numProcessed
        = (producedRecords (runReadLoop (NewTSVInputReader [] ⟨['a', '\n'], true, "disk full"⟩ 1)).1).length + 1 :=
  ⟨(C9_amended_processed_count [] ⟨['a', '\n'], false, ""⟩ 1 (by decide)).1 rfl,
   (C9_amended_processed_count [] ⟨['a', '\n'], true, "disk full"⟩ 1 (by decide)).2 rfl⟩

/-- C2: when the stream fails with a non-EOF error after `k` complete
records were produced, the reading stage's terminal signal is the read
error naming entry number `k + 1`, and the decode stage delivers no more
`ConversionOutcome`s than the `k` records actually sent to it (exactly
one per record). -/
theorem C2_read_error_names_ordinal_k_plus_one (fields : List (List Char)) (bs : ByteStream)
    (nd : Nat) (convert : TSVConverter → Except String BSONDoc)
    (hnum : bs.data.length + 1 < uint64Mod) (hfail : bs.failAfter = true) :
    errSignals (runReadLoop (NewTSVInputReader fields bs nd)).1
      = [some ("read error on entry #"
          ++ toString
              ((producedRecords (runReadLoop (NewTSVInputReader fields bs nd)).1).length + 1)
          ++ ": " ++ bs.ioMsg)]
    ∧ (streamDocumentsOutcomes convert
          (producedRecords (runReadLoop (NewTSVInputReader fields bs nd)).1)).length
        ≤ (producedRecords (runReadLoop (NewTSVInputReader fields bs nd)).1).length := by
  obtain ⟨convs, e, r2, hrun, -, -, -, -, -, htrue, -⟩ :=
    runReadLoop_shape (NewTSVInputReader fields bs nd) (by simpa [NewTSVInputReader] using hnum)
  obtain ⟨he, -⟩ := htrue hfail
  simp only [NewTSVInputReader, Nat.zero_add] at he
  simp only [hrun, producedRecords_shape, errSignals_shape]
  constructor
  · rw [he]
  · simp [streamDocumentsOutcomes]

/-- Witness for C2: the stream delivers "x\n" (one complete record) and
then fails with "boom"; the terminal signal names entry 2 and at most one
outcome is produced. -/
theorem C2_read_error_names_ordinal_k_plus_one_witness :
    errSignals (runReadLoop (NewTSVInputReader [['a']] ⟨['x', '\n'], true, "boom"⟩ 1)).1
      = [some ("read error on entry #"
          ++ toString
              ((producedRecords
                  (runReadLoop (NewTSVInputReader [['a']] ⟨['x', '\n'], true, "boom"⟩ 1)).1).length + 1)
          ++ ": " ++ ByteStream.ioMsg ⟨['x', '\n'], true, "boom"⟩)]
    ∧ (streamDocumentsOutcomes (fun _ => Except.ok [])
          (producedRecords
              (runReadLoop (NewTSVInputReader [['a']] ⟨['x', '\n'], true, "boom"⟩ 1)).1)).length
        ≤ (producedRecords
              (runReadLoop (NewTSVInputReader [['a']] ⟨['x', '\n'], true, "boom"⟩ 1)).1).length :=
  C2_read_error_names_ordinal_k_plus_one [['a']] ⟨['x', '\n'], true, "boom"⟩ 1
    (fun _ => Except.ok []) (by decide) rfl

/-- C3: in a run of the reading goroutine on a freshly constructed
reader, the records sent on `tsvRecordChan` carry sequence indices that
are exactly `0, 1, 2, ...` in order — strictly increasing from 0, no
gaps, no index reused. -/
theorem C3_indices_strictly_increasing_from_zero (fields : List (List Char)) (bs : ByteStream)
    (nd : Nat) (hnum : bs.data.length + 1 < uint64Mod) :
    (producedRecords (runReadLoop (NewTSVInputReader fields bs nd)).1).map TSVConverter.index
      = List.range (producedRecords (runReadLoop (NewTSVInputReader fields bs nd)).1).length := by
  obtain ⟨convs, e, r2, hrun, -, hidx, -, -, -, -, -⟩ :=
    runReadLoop_shape (NewTSVInputReader fields bs nd) (by simpa [NewTSVInputReader] using hnum)
  simp only [hrun, producedRecords_shape]
  apply List.ext_get (by simp)
  intro n h1 h2
  have hn : n < convs.length := by simpa using h1
  have := hidx n hn
  simp only [NewTSVInputReader] at this
  simp only [List.get_eq_getElem, List.getElem_map, List.getElem_range]
  simp only [List.get_eq_getElem] at this
  rw [this]
  exact Nat.zero_add n

/-- Witness for C3 on the two-record stream "x\ny\n": indices are [0, 1]. -/
theorem C3_indices_strictly_increasing_from_zero_witness :
    (producedRecords
        (runReadLoop (NewTSVInputReader [] ⟨['x', '\n', 'y', '\n'], false, ""⟩ 1)).1).map
        TSVConverter.index
      = List.range
          (producedRecords
              (runReadLoop (NewTSVInputReader [] ⟨['x', '\n', 'y', '\n'], false, ""⟩ 1)).1).length :=
  C3_indices_strictly_increasing_from_zero [] ⟨['x', '\n', 'y', '\n'], false, ""⟩ 1 (by decide)

/-- C4: when the stream ends (EOF) with a non-empty final chunk not
terminated by the delimiter, the reading stage still signals `nil`
(clean success), and every record it ever sent to the decode channel is
delimiter-terminated — so the partial trailing record is never sent and
yields no `ConversionOutcome`; exactly one record per delimiter is sent. -/
theorem C4_partial_trailing_record_silently_dropped (fields : List (List Char))
    (bs : ByteStream) (nd : Nat) (hnum : bs.data.length + 1 < uint64Mod)
    (heof : bs.failAfter = false) (_hne : bs.data ≠ [])
    (_hlast : bs.data.getLast? ≠ some entryDelimiter) :
    errSignals (runReadLoop (NewTSVInputReader fields bs nd)).1 = [none]
    ∧ (∀ c ∈ producedRecords (runReadLoop (NewTSVInputReader fields bs nd)).1,
        c.data.getLast? = some entryDelimiter)
    ∧ (producedRecords (runReadLoop (NewTSVInputReader fields bs nd)).1).length
        = bs.data.count entryDelimiter := by
  obtain ⟨convs, e, r2, hrun, hcount, -, -, hlastc, hfalse, -, -⟩ :=
    runReadLoop_shape (NewTSVInputReader fields bs nd) (by simpa [NewTSVInputReader] using hnum)
  obtain ⟨he, -⟩ := hfalse heof
  simp only [hrun, producedRecords_shape, errSignals_shape]
  exact ⟨by rw [he], hlastc, hcount⟩

/-- Witness for C4 on "x\nzz" (EOF after a partial record "zz"): signal
is nil, all sent records end in the delimiter, and exactly 1 record (one
delimiter) is sent. -/
theorem C4_partial_trailing_record_silently_dropped_witness :
    errSignals (runReadLoop (NewTSVInputReader [] ⟨['x', '\n', 'z', 'z'], false, ""⟩ 1)).1 = [none]
    ∧ (∀ c ∈ producedRecords
          (runReadLoop (NewTSVInputReader [] ⟨['x', '\n', 'z', 'z'], false, ""⟩ 1)).1,
        c.data.getLast? = some entryDelimiter)
    ∧ (producedRecords
          (runReadLoop (NewTSVInputReader [] ⟨['x', '\n', 'z', 'z'], false, ""⟩ 1)).1).length
        = (ByteStream.data ⟨['x', '\n', 'z', 'z'], false, ""⟩).count entryDelimiter :=
  C4_partial_trailing_record_silently_dropped [] ⟨['x', '\n', 'z', 'z'], false, ""⟩ 1
    (by decide) rfl (by decide) (by decide)

/-- C5: the reading stage sends exactly one terminal signal on
`tsvErrChan` in every execution, the decode/merge stage sends exactly
one, and `StreamDocument` resolves exactly these two signals through
`channelQuorumError` at quorum 2. -/
theorem C5_two_stages_one_signal_each_quorum_two (fields : List (List Char)) (bs : ByteStream)
    (nd : Nat) (convert : TSVConverter → Except String BSONDoc) (ordered : Bool)
    (hnum : bs.data.length + 1 < uint64Mod) :
    (errSignals (runReadLoop (NewTSVInputReader fields bs nd)).1).length = 1
    ∧ (decodeStageSignals
        (producedRecords (runReadLoop (NewTSVInputReader fields bs nd)).1)).length = 1
    ∧ streamDocumentQuorum = 2
    ∧ (StreamDocument convert ordered (NewTSVInputReader fields bs nd)).1
        = channelQuorumError
            (errSignals (runReadLoop (NewTSVInputReader fields bs nd)).1
              ++ decodeStageSignals
                  (producedRecords (runReadLoop (NewTSVInputReader fields bs nd)).1))
            streamDocumentQuorum := by
  obtain ⟨convs, e, r2, hrun, -, -, -, -, -, -, -⟩ :=
    runReadLoop_shape (NewTSVInputReader fields bs nd) (by simpa [NewTSVInputReader] using hnum)
  refine ⟨?_, rfl, rfl, rfl⟩
  simp only [hrun, errSignals_shape]
  rfl

/-- Witness for C5 at the concrete input "x\n". -/
theorem C5_two_stages_one_signal_each_quorum_two_witness :
    (errSignals (runReadLoop (NewTSVInputReader [] ⟨['x', '\n'], false, ""⟩ 3)).1).length = 1
    ∧ (decodeStageSignals
        (producedRecords (runReadLoop (NewTSVInputReader [] ⟨['x', '\n'], false, ""⟩ 3)).1)).length = 1
    ∧ streamDocumentQuorum = 2
    ∧ (StreamDocument (fun _ => Except.ok []) true (NewTSVInputReader [] ⟨['x', '\n'], false, ""⟩ 3)).1
        = channelQuorumError
            (errSignals (runReadLoop (NewTSVInputReader [] ⟨['x', '\n'], false, ""⟩ 3)).1
              ++ decodeStageSignals
                  (producedRecords (runReadLoop (NewTSVInputReader [] ⟨['x', '\n'], false, ""⟩ 3)).1))
            streamDocumentQuorum :=
  C5_two_stages_one_signal_each_quorum_two [] ⟨['x', '\n'], false, ""⟩ 3
    (fun _ => Except.ok []) true (by decide)

/-- A right-trim of the CR/LF cutset leaves no trailing carriage return
or newline. -/
lemma trimRightCRLF_getLast?_ne (s : List Char) :
    (trimRightCRLF s).getLast? ≠ some '\r' ∧ (trimRightCRLF s).getLast? ≠ some '\n' := by
  unfold trimRightCRLF
  rw [List.getLast?_reverse]
  rcases hd : s.reverse.dropWhile (fun c => c = '\r' || c = '\n') with _ | ⟨a, t⟩
  · simp
  · have h0 : 0 < (s.reverse.dropWhile (fun c => c = '\r' || c = '\n')).length := by
      rw [hd]; simp
    have hna := List.dropWhile_get_zero_not _ s.reverse h0
    rw [List.get_of_eq hd] at hna
    simp at hna
    simp [hd, hna]

/-- C10: `ReadAndValidateHeader` reads one header line; if the read
errors it returns that error with the field list untouched; otherwise it
appends the header-derived names — the line split on the tab separator,
each token right-trimmed of CR and LF — to the reader's pre-existing
field list (never replacing it) and returns the result of validating the
combined list. -/
theorem C10_header_appends_and_validates (validate : List (List Char) → Option String)
    (r : TSVInputReader) :
    (∀ e, (readString r.tsvReader entryDelimiter).2.1 = some e →
        ReadAndValidateHeader validate r
          = (some (HeaderErr.readErr e),
             { r with tsvReader := (readString r.tsvReader entryDelimiter).2.2 }))
    ∧ ((readString r.tsvReader entryDelimiter).2.1 = none →
        (ReadAndValidateHeader validate r).2.fields
            = r.fields
              ++ ((readString r.tsvReader entryDelimiter).1.splitOn tokenSeparator).map
                  trimRightCRLF
        ∧ (∀ t ∈ ((readString r.tsvReader entryDelimiter).1.splitOn tokenSeparator).map
              trimRightCRLF,
            t.getLast? ≠ some '\r' ∧ t.getLast? ≠ some '\n')
        ∧ (ReadAndValidateHeader validate r).1
            = (validate ((ReadAndValidateHeader validate r).2.fields)).map HeaderErr.invalid) := by
  constructor
  · intro e he
    simp [ReadAndValidateHeader, he]
  · intro hn
    refine ⟨?_, ?_, ?_⟩
    · simp [ReadAndValidateHeader, hn]
    · intro t ht
      rcases List.mem_map.mp ht with ⟨u, -, hu⟩
      rw [← hu]
      exact trimRightCRLF_getLast?_ne u
    · simp [ReadAndValidateHeader, hn]

/-- Witness for C10: an empty stream makes the header read fail with EOF
and leaves the fields untouched; the header line "a\tb\r\n" appends the
trimmed tokens to the pre-existing field list. -/
theorem C10_header_appends_and_validates_witness :
    ReadAndValidateHeader (fun _ => none) (NewTSVInputReader [['x']] ⟨[], false, ""⟩ 1)
      = (some (HeaderErr.readErr ReadErr.eof),
         { NewTSVInputReader [['x']] ⟨[], false, ""⟩ 1 with
             tsvReader :=
               (readString (NewTSVInputReader [['x']] ⟨[], false, ""⟩ 1).tsvReader
                   entryDelimiter).2.2 })
    ∧ (ReadAndValidateHeader (fun _ => none)
          (NewTSVInputReader [['x']] ⟨['a', '\t', 'b', '\r', '\n'], false, ""⟩ 1)).2.fields
        = [['x']]
          ++ (((readString
                  (NewTSVInputReader [['x']] ⟨['a', '\t', 'b', '\r', '\n'], false, ""⟩ 1).tsvReader
                  entryDelimiter).1).splitOn tokenSeparator).map trimRightCRLF :=
  ⟨(C10_header_appends_and_validates (fun _ => none)
      (NewTSVInputReader [['x']] ⟨[], false, ""⟩ 1)).1 ReadErr.eof (by decide),
   ((C10_header_appends_and_validates (fun _ => none)
      (NewTSVInputReader [['x']] ⟨['a', '\t', 'b', '\r', '\n'], false, ""⟩ 1)).2 (by decide)).1⟩

end Mongoimport
